import Mathlib

/-!
Shallow embedding of the wait-human Rust client library
(src/client.rs, src/types.rs, src/error.rs), together with proofs of the
specified properties.

The shared type definitions (module shared_types, re-exported by
src/types.rs) are not part of the provided sources; those data shapes are
modelled from the specification text (section 3, DATA MODEL).  All client
logic is translated directly from src/client.rs.

Modelling conventions:
* Rust u32 / u64 / usize values are Nat (the claims never exercise
  overflow of these widths).
* The f64 elapsed-seconds clock is modelled as a rational number; the
  clock itself is a parameter (a function from loop iteration to elapsed
  seconds), since wall-clock time is external to the program.
* The HTTP transport is a parameter: each request site receives the
  transport result (network error, non-success status, or a decoded
  body) as data.  Requests actually issued and sleeps actually performed
  are recorded in an event trace.
* The polling loop of poll_for_answer is unbounded in the source; it is
  embedded with explicit fuel, returning none when the fuel is
  insufficient to reach a terminal state.
-/

namespace WaitHumanClient

/-- Modelled from the spec: delivery mechanism enum with one variant "push"
(shared_types is not in the provided sources). -/
inductive QuestionMethod where
  | push
deriving DecidableEq, Repr

/-- Modelled from the spec: tagged union AnswerFormat, FreeText with no
payload, or Options with an ordered choice list and a multi-select flag. -/
inductive AnswerFormat where
  | freeText
  | options (options : List String) (multiple : Bool)
deriving DecidableEq, Repr

/-- Modelled from the spec: tagged union AnswerContent, FreeText carrying
a text string, or Options carrying a sequence of unsigned indices. -/
inductive AnswerContent where
  | freeText (text : String)
  | options (selected_indexes : List Nat)
deriving DecidableEq, Repr

/-- Modelled from the spec: a question with method, subject, optional body
and an answer format. -/
structure ConfirmationQuestion where
  method : QuestionMethod
  subject : String
  body : Option String
  answer_format : AnswerFormat
deriving DecidableEq, Repr

/-- Modelled from the spec: an answer wraps its content. -/
structure ConfirmationAnswer where
  answer_content : AnswerContent
deriving DecidableEq, Repr

/-- Modelled from the spec: ConfirmationAnswer plus a timestamp, opaque to
the client and passed through; the timestamp is modelled as a string. -/
structure ConfirmationAnswerWithDate where
  answer : ConfirmationAnswer
  date : String
deriving DecidableEq, Repr

/-- src/types.rs: configuration with a mandatory api_key and an optional
endpoint override. -/
structure WaitHumanConfig where
  api_key : String
  endpoint : Option String
deriving DecidableEq, Repr

/-- src/types.rs: WaitHumanConfig::new, default endpoint of none. -/
def WaitHumanConfig.new (api_key : String) : WaitHumanConfig :=
  { api_key := api_key, endpoint := none }

/-- src/types.rs: WaitHumanConfig::with_endpoint. -/
def WaitHumanConfig.with_endpoint (c : WaitHumanConfig) (endpoint : String) :
    WaitHumanConfig :=
  { c with endpoint := some endpoint }

/-- src/types.rs: options for ask requests, optional timeout in seconds. -/
structure AskOptions where
  timeout_seconds : Option Nat
deriving DecidableEq, Repr

/-- src/types.rs: wire response of the creation endpoint. -/
structure CreateConfirmationResponse where
  confirmation_request_id : String
deriving DecidableEq, Repr

/-- src/types.rs: wire response of the poll endpoint. -/
structure GetConfirmationResponse where
  maybe_answer : Option ConfirmationAnswerWithDate
deriving DecidableEq, Repr

/-- Rendering of one character under the derived Rust Debug formatting of
strings (quote, backslash, newline, tab and carriage return escaped). -/
def rustEscapeChar (c : Char) : String :=
  if c = '\\' then "\\\\"
  else if c = '"' then "\\\""
  else if c = '\n' then "\\n"
  else if c = '\t' then "\\t"
  else if c = '\r' then "\\r"
  else String.singleton c

/-- Derived Rust Debug rendering of a string value. -/
def rustDebugString (s : String) : String :=
  "\"" ++ String.join (s.data.map rustEscapeChar) ++ "\""

/-- Derived Rust Debug rendering of a Vec of unsigned integers. -/
def rustDebugNatList (l : List Nat) : String :=
  "[" ++ String.intercalate ", " (l.map toString) ++ "]"

/-- Derived Rust Debug rendering of an AnswerContent value, as produced by
the formatting directive at the UnexpectedAnswerType construction sites in
src/client.rs. -/
def AnswerContent.debugFmt : AnswerContent → String
  | .freeText text =>
      "FreeText \x7b text: " ++ rustDebugString text ++ " \x7d"
  | .options selected_indexes =>
      "Options \x7b selected_indexes: " ++ rustDebugNatList selected_indexes ++ " \x7d"

/-- src/error.rs: the error enum WaitHumanError.  The f64 payload of
Timeout is modelled as a rational. -/
inductive WaitHumanError where
  | Timeout (elapsed_seconds : ℚ)
  | NetworkError (msg : String)
  | CreateFailed (status_text : String)
  | PollFailed (status_text : String)
  | UnexpectedAnswerType (expected : String) (actual : String)
  | InvalidSelectedIndex (index : Nat)
  | InvalidResponse (msg : String)
deriving DecidableEq, Repr

/-- Result of one HTTP request as seen by the client: a transport-level
error (reqwest::Error, surfaced by the question-mark operator on send or
on body decoding), a non-success HTTP status with its status text, or a
successfully decoded body. -/
inductive HttpResult (α : Type) where
  | networkErr (msg : String)
  | httpError (status_text : String)
  | ok (body : α)
deriving DecidableEq, Repr

/-- Observable external action of the client: an HTTP POST to the creation
endpoint, an HTTP GET to the poll endpoint (both recording url and the
Authorization header value), or a sleep of the given milliseconds. -/
inductive ClientEvent where
  | postCreate (url : String) (auth : String)
  | getPoll (url : String) (auth : String)
  | sleepMs (ms : Nat)
deriving DecidableEq, Repr

/-- Number of poll GET requests in an event trace. -/
def countPolls (evs : List ClientEvent) : Nat :=
  (evs.filter fun e =>
    match e with
    | .getPoll _ _ => true
    | _ => false).length

/-- src/client.rs: the DEFAULT_ENDPOINT constant. -/
def DEFAULT_ENDPOINT : String := "https://api.waithuman.com"

/-- src/client.rs: the POLL_INTERVAL_MS constant. -/
def POLL_INTERVAL_MS : Nat := 3000

/-- src/client.rs: the client state after construction (the reqwest
Client handle carries no observable state and is omitted). -/
structure WaitHuman where
  api_key : String
  endpoint : String
deriving DecidableEq, Repr

/-- src/client.rs: WaitHuman::new.  Rejects an empty api_key with
InvalidResponse, defaults the endpoint, and pops one trailing slash
character when the endpoint ends with one: the ends_with test on the
slash character is the last character of the string being a slash, and
pop drops that last character, both expressed on the character list of
the string.  The construction performs no HTTP request, hence the empty
event trace. -/
def WaitHuman.new (config : WaitHumanConfig) :
    Except WaitHumanError WaitHuman × List ClientEvent :=
  if config.api_key.isEmpty then
    (.error (.InvalidResponse "api_key is mandatory"), [])
  else
    let endpoint0 := config.endpoint.getD DEFAULT_ENDPOINT
    let endpoint :=
      if endpoint0.data.getLast? = some '/' then String.mk endpoint0.data.dropLast
      else endpoint0
    (.ok { api_key := config.api_key, endpoint := endpoint }, [])

/-- src/client.rs: WaitHuman::new_from_key, delegating to new with a
config built by WaitHumanConfig::new. -/
def WaitHuman.new_from_key (api_key : String) :
    Except WaitHumanError WaitHuman × List ClientEvent :=
  WaitHuman.new (WaitHumanConfig.new api_key)

/-- src/client.rs: the strict timeout test of poll_for_answer, true when a
timeout was specified and the elapsed seconds strictly exceed it. -/
def timeoutExceeded (timeout_seconds : Option Nat) (elapsed_seconds : ℚ) : Bool :=
  match timeout_seconds with
  | some timeout => decide ((timeout : ℚ) < elapsed_seconds)
  | none => false

/-- src/client.rs: WaitHuman::create_confirmation.  Sends one POST to the
creation url with the api_key as Authorization header; a transport error
propagates as NetworkError, a non-success status yields CreateFailed with
the status text, otherwise the confirmation_request_id of the decoded body
is returned.  The question value is serialized into the request body and
does not influence the client-side control flow. -/
def WaitHuman.create_confirmation (c : WaitHuman)
    (question : ConfirmationQuestion)
    (resp : HttpResult CreateConfirmationResponse) :
    Except WaitHumanError String × List ClientEvent :=
  let url := c.endpoint ++ "/confirmations/create"
  let evs := [ClientEvent.postCreate url c.api_key]
  match resp with
  | .networkErr msg => (.error (.NetworkError msg), evs)
  | .httpError status_text => (.error (.CreateFailed status_text), evs)
  | .ok data => (.ok data.confirmation_request_id, evs)

/-- src/client.rs: the loop body of WaitHuman::poll_for_answer, with the
transport and the clock as parameters.  Iteration i reads the elapsed
seconds, returns Timeout when a specified timeout is strictly exceeded
(before issuing the GET of that iteration), otherwise issues the GET:
a transport error propagates as NetworkError, a non-success status yields
PollFailed, a decoded body with a present answer is returned, and an
absent answer sleeps POLL_INTERVAL_MS milliseconds and repeats.  The fuel
argument bounds the number of iterations of this unbounded source loop;
none means the fuel ran out before a terminal state. -/
def WaitHuman.poll_for_answer (c : WaitHuman) (confirmation_id : String)
    (responses : Nat → HttpResult GetConfirmationResponse)
    (elapsed : Nat → ℚ) (timeout_seconds : Option Nat) :
    Nat → Nat →
    Option (Except WaitHumanError ConfirmationAnswerWithDate × List ClientEvent)
  | 0, _ => none
  | fuel + 1, i =>
    let elapsed_seconds := elapsed i
    if timeoutExceeded timeout_seconds elapsed_seconds then
      some (.error (.Timeout elapsed_seconds), [])
    else
      let url :=
        c.endpoint ++ "/confirmations/get/" ++ confirmation_id ++ "?long_poll=false"
      match responses i with
      | .networkErr msg =>
          some (.error (.NetworkError msg), [.getPoll url c.api_key])
      | .httpError status_text =>
          some (.error (.PollFailed status_text), [.getPoll url c.api_key])
      | .ok data =>
          match data.maybe_answer with
          | some answer => some (.ok answer, [.getPoll url c.api_key])
          | none =>
              match
                WaitHuman.poll_for_answer c confirmation_id responses elapsed
                  timeout_seconds fuel (i + 1)
              with
              | none => none
              | some (r, evs) =>
                  some (r, .getPoll url c.api_key :: .sleepMs POLL_INTERVAL_MS :: evs)

/-- src/client.rs: WaitHuman::ask.  Creates the confirmation, extracts the
optional timeout from the options, and enters the poll loop from
iteration 0.  The event trace is the creation request followed by the
poll-loop events. -/
def WaitHuman.ask (c : WaitHuman) (question : ConfirmationQuestion)
    (options : Option AskOptions)
    (createResp : HttpResult CreateConfirmationResponse)
    (responses : Nat → HttpResult GetConfirmationResponse)
    (elapsed : Nat → ℚ) (fuel : Nat) :
    Option (Except WaitHumanError ConfirmationAnswerWithDate × List ClientEvent) :=
  match c.create_confirmation question createResp with
  | (.error e, evs) => some (.error e, evs)
  | (.ok confirmation_id, evs) =>
    let timeout_seconds := options.bind fun o => o.timeout_seconds
    match
      c.poll_for_answer confirmation_id responses elapsed timeout_seconds fuel 0
    with
    | none => none
    | some (r, pollEvs) => some (r, evs ++ pollEvs)

/-- src/client.rs: WaitHuman::ask_free_text.  Builds a push question with
FreeText answer format, delegates to ask, and narrows the answer content:
a FreeText answer yields its text, any other variant fails with
UnexpectedAnswerType recording the Debug rendering of the received value. -/
def WaitHuman.ask_free_text (c : WaitHuman) (subject : String)
    (body : Option String) (options : Option AskOptions)
    (createResp : HttpResult CreateConfirmationResponse)
    (responses : Nat → HttpResult GetConfirmationResponse)
    (elapsed : Nat → ℚ) (fuel : Nat) :
    Option (Except WaitHumanError String × List ClientEvent) :=
  let question : ConfirmationQuestion :=
    { method := .push, subject := subject, body := body,
      answer_format := .freeText }
  match c.ask question options createResp responses elapsed fuel with
  | none => none
  | some (.error e, evs) => some (.error e, evs)
  | some (.ok answer, evs) =>
    match answer.answer.answer_content with
    | .freeText text => some (.ok text, evs)
    | other =>
        some (.error (.UnexpectedAnswerType "free_text" other.debugFmt), evs)

/-- src/client.rs: WaitHuman::ask_multiple_choice.  Materializes the
choices once, builds a push question with Options answer format (multiple
false), delegates to ask, and narrows the answer content: an Options
answer with an empty index list fails with InvalidResponse, otherwise the
first index selects from the materialized choices, out of range failing
with InvalidSelectedIndex; any other content variant fails with
UnexpectedAnswerType recording the Debug rendering of the received value. -/
def WaitHuman.ask_multiple_choice (c : WaitHuman) (subject : String)
    (choices : List String) (body : Option String) (options : Option AskOptions)
    (createResp : HttpResult CreateConfirmationResponse)
    (responses : Nat → HttpResult GetConfirmationResponse)
    (elapsed : Nat → ℚ) (fuel : Nat) :
    Option (Except WaitHumanError String × List ClientEvent) :=
  let choices_vec : List String := choices
  let question : ConfirmationQuestion :=
    { method := .push, subject := subject, body := body,
      answer_format := .options choices_vec false }
  match c.ask question options createResp responses elapsed fuel with
  | none => none
  | some (.error e, evs) => some (.error e, evs)
  | some (.ok answer, evs) =>
    match answer.answer.answer_content with
    | .options selected_indexes =>
      match selected_indexes.head? with
      | none => some (.error (.InvalidResponse "No selection received"), evs)
      | some index =>
        match choices_vec.get? index with
        | some choice => some (.ok choice, evs)
        | none => some (.error (.InvalidSelectedIndex index), evs)
    | other =>
        some (.error (.UnexpectedAnswerType "options" other.debugFmt), evs)

/-- A creation response that succeeds with the given identifier. -/
def createOk (id : String) : HttpResult CreateConfirmationResponse :=
  .ok { confirmation_request_id := id }

/-- A poll transport that returns the given answer on the first request. -/
def answerFirst (a : ConfirmationAnswerWithDate) :
    Nat → HttpResult GetConfirmationResponse :=
  fun _ => .ok { maybe_answer := some a }

/-- A poll transport whose request i succeeds with no answer present. -/
def neverAnswer : Nat → HttpResult GetConfirmationResponse :=
  fun _ => .ok { maybe_answer := none }

instance {ε α : Type} [DecidableEq ε] [DecidableEq α] :
    DecidableEq (Except ε α) := fun x y =>
  match x, y with
  | .error a, .error b =>
      if h : a = b then .isTrue (by rw [h]) else .isFalse (by simp [h])
  | .ok a, .ok b =>
      if h : a = b then .isTrue (by rw [h]) else .isFalse (by simp [h])
  | .error _, .ok _ => .isFalse (by simp)
  | .ok _, .error _ => .isFalse (by simp)

/-- The outcome component of a traced result, discarding the event list. -/
def outcomeOf {α : Type}
    (r : Option (Except WaitHumanError α × List ClientEvent)) :
    Option (Except WaitHumanError α) :=
  r.map Prod.fst

/-- The url of the creation endpoint for a given client. -/
def createUrl (c : WaitHuman) : String :=
  c.endpoint ++ "/confirmations/create"

/-- The url of the poll endpoint for a given client and confirmation id. -/
def pollUrl (c : WaitHuman) (confirmation_id : String) : String :=
  c.endpoint ++ "/confirmations/get/" ++ confirmation_id ++ "?long_poll=false"

/-- Event trace of a poll loop issuing n GET requests with the fixed sleep
interval between consecutive requests, the loop ending at the n-th
request (answer received, or non-success status). -/
def pollEvents (url auth : String) : Nat → List ClientEvent
  | 0 => []
  | 1 => [.getPoll url auth]
  | n + 2 =>
      .getPoll url auth :: .sleepMs POLL_INTERVAL_MS :: pollEvents url auth (n + 1)

/-- Event trace of a poll loop issuing n GET requests each followed by the
fixed sleep, the loop then ending at an iteration boundary (timeout). -/
def pollTimeoutEvents (url auth : String) : Nat → List ClientEvent
  | 0 => []
  | n + 1 =>
      .getPoll url auth :: .sleepMs POLL_INTERVAL_MS ::
        pollTimeoutEvents url auth n

/-- A concrete client used to exercise the definitions on closed inputs. -/
def demoClient : WaitHuman :=
  { api_key := "k", endpoint := "https://e" }

/-- A concrete dated answer with the given content. -/
def demoAnswer (content : AnswerContent) : ConfirmationAnswerWithDate :=
  { answer := { answer_content := content }, date := "2024-01-01" }

/-- One unfolding step of the embedded poll loop. -/
lemma poll_for_answer_succ (c : WaitHuman) (confirmation_id : String)
    (responses : Nat → HttpResult GetConfirmationResponse)
    (elapsed : Nat → ℚ) (timeout_seconds : Option Nat) (fuel i : Nat) :
    c.poll_for_answer confirmation_id responses elapsed timeout_seconds
        (fuel + 1) i =
      if timeoutExceeded timeout_seconds (elapsed i) then
        some (.error (.Timeout (elapsed i)), [])
      else
        match responses i with
        | .networkErr msg =>
            some (.error (.NetworkError msg),
              [.getPoll (pollUrl c confirmation_id) c.api_key])
        | .httpError status_text =>
            some (.error (.PollFailed status_text),
              [.getPoll (pollUrl c confirmation_id) c.api_key])
        | .ok data =>
            match data.maybe_answer with
            | some answer =>
                some (.ok answer,
                  [.getPoll (pollUrl c confirmation_id) c.api_key])
            | none =>
                match
                  c.poll_for_answer confirmation_id responses elapsed
                    timeout_seconds fuel (i + 1)
                with
                | none => none
                | some (r, evs) =>
                    some (r, .getPoll (pollUrl c confirmation_id) c.api_key ::
                      .sleepMs POLL_INTERVAL_MS :: evs) := rfl

/-- The poll loop started at iteration i, facing k answerless successful
responses followed by a response carrying an answer, none of the k + 1
iterations exceeding the timeout, returns the answer after exactly k + 1
GET requests separated by fixed-interval sleeps. -/
lemma poll_answers_after (c : WaitHuman) (confirmation_id : String)
    (responses : Nat → HttpResult GetConfirmationResponse)
    (elapsed : Nat → ℚ) (timeout_seconds : Option Nat)
    (a : ConfirmationAnswerWithDate) (k : Nat) :
    ∀ (i fuel : Nat),
      (∀ j, j < k → responses (i + j) = .ok { maybe_answer := none }) →
      responses (i + k) = .ok { maybe_answer := some a } →
      (∀ j, j ≤ k → timeoutExceeded timeout_seconds (elapsed (i + j)) = false) →
      k + 1 ≤ fuel →
      c.poll_for_answer confirmation_id responses elapsed timeout_seconds
          fuel i =
        some (.ok a, pollEvents (pollUrl c confirmation_id) c.api_key (k + 1)) := by
  induction k with
  | zero =>
    intro i fuel hno hans htim hfuel
    match fuel, hfuel with
    | fuel + 1, _ =>
      rw [poll_for_answer_succ]
      have h0 : timeoutExceeded timeout_seconds (elapsed i) = false := by
        simpa using htim 0 (Nat.le_refl 0)
      have ha : responses i = .ok { maybe_answer := some a } := by
        simpa using hans
      simp [h0, ha, pollEvents]
  | succ k ih =>
    intro i fuel hno hans htim hfuel
    match fuel, hfuel with
    | fuel + 1, hfuel =>
      rw [poll_for_answer_succ]
      have h0 : timeoutExceeded timeout_seconds (elapsed i) = false := by
        simpa using htim 0 (Nat.zero_le _)
      have hn0 : responses i = .ok { maybe_answer := none } := by
        simpa using hno 0 (Nat.succ_pos k)
      have hno1 : ∀ j, j < k →
          responses (i + 1 + j) = .ok { maybe_answer := none } := by
        intro j hj
        have e : i + 1 + j = i + (j + 1) := by omega
        rw [e]
        exact hno (j + 1) (by omega)
      have hans1 : responses (i + 1 + k) = .ok { maybe_answer := some a } := by
        have e : i + 1 + k = i + (k + 1) := by omega
        rw [e]; exact hans
      have htim1 : ∀ j, j ≤ k →
          timeoutExceeded timeout_seconds (elapsed (i + 1 + j)) = false := by
        intro j hj
        have e : i + 1 + j = i + (j + 1) := by omega
        rw [e]
        exact htim (j + 1) (by omega)
      have hrec := ih (i + 1) fuel hno1 hans1 htim1 (by omega)
      simp [h0, hn0, hrec, pollEvents]

/-- The poll loop started at iteration i, facing only answerless
successful responses, with the first m iterations within the timeout and
the timeout strictly exceeded at iteration boundary m, returns a Timeout
carrying the elapsed seconds of boundary m after exactly m GET requests,
issuing no GET at the iteration that detects the timeout. -/
lemma poll_times_out_at (c : WaitHuman) (confirmation_id : String)
    (responses : Nat → HttpResult GetConfirmationResponse)
    (elapsed : Nat → ℚ) (timeout_seconds : Option Nat) (m : Nat) :
    ∀ (i fuel : Nat),
      (∀ j, j < m → responses (i + j) = .ok { maybe_answer := none }) →
      (∀ j, j < m → timeoutExceeded timeout_seconds (elapsed (i + j)) = false) →
      timeoutExceeded timeout_seconds (elapsed (i + m)) = true →
      m + 1 ≤ fuel →
      c.poll_for_answer confirmation_id responses elapsed timeout_seconds
          fuel i =
        some (.error (.Timeout (elapsed (i + m))),
          pollTimeoutEvents (pollUrl c confirmation_id) c.api_key m) := by
  induction m with
  | zero =>
    intro i fuel hno htim hstop hfuel
    match fuel, hfuel with
    | fuel + 1, _ =>
      rw [poll_for_answer_succ]
      have hs : timeoutExceeded timeout_seconds (elapsed i) = true := by
        simpa using hstop
      simp [hs, pollTimeoutEvents]
  | succ m ih =>
    intro i fuel hno htim hstop hfuel
    match fuel, hfuel with
    | fuel + 1, hfuel =>
      rw [poll_for_answer_succ]
      have h0 : timeoutExceeded timeout_seconds (elapsed i) = false := by
        simpa using htim 0 (Nat.succ_pos m)
      have hn0 : responses i = .ok { maybe_answer := none } := by
        simpa using hno 0 (Nat.succ_pos m)
      have hno1 : ∀ j, j < m →
          responses (i + 1 + j) = .ok { maybe_answer := none } := by
        intro j hj
        have e : i + 1 + j = i + (j + 1) := by omega
        rw [e]; exact hno (j + 1) (by omega)
      have htim1 : ∀ j, j < m →
          timeoutExceeded timeout_seconds (elapsed (i + 1 + j)) = false := by
        intro j hj
        have e : i + 1 + j = i + (j + 1) := by omega
        rw [e]; exact htim (j + 1) (by omega)
      have hstop1 :
          timeoutExceeded timeout_seconds (elapsed (i + 1 + m)) = true := by
        have e : i + 1 + m = i + (m + 1) := by omega
        rw [e]; exact hstop
      have hrec := ih (i + 1) fuel hno1 htim1 hstop1 (by omega)
      have e : i + 1 + m = i + (m + 1) := by omega
      rw [e] at hrec
      simp [h0, hn0, hrec, pollTimeoutEvents]

/-- The poll loop started at iteration i, facing m answerless successful
responses followed by a non-success HTTP status, none of the m + 1
iterations exceeding the timeout, aborts with PollFailed carrying the
status text after exactly m + 1 GET requests, no retry being attempted. -/
lemma poll_fails_at (c : WaitHuman) (confirmation_id : String)
    (responses : Nat → HttpResult GetConfirmationResponse)
    (elapsed : Nat → ℚ) (timeout_seconds : Option Nat)
    (status_text : String) (m : Nat) :
    ∀ (i fuel : Nat),
      (∀ j, j < m → responses (i + j) = .ok { maybe_answer := none }) →
      responses (i + m) = .httpError status_text →
      (∀ j, j ≤ m → timeoutExceeded timeout_seconds (elapsed (i + j)) = false) →
      m + 1 ≤ fuel →
      c.poll_for_answer confirmation_id responses elapsed timeout_seconds
          fuel i =
        some (.error (.PollFailed status_text),
          pollEvents (pollUrl c confirmation_id) c.api_key (m + 1)) := by
  induction m with
  | zero =>
    intro i fuel hno hfail htim hfuel
    match fuel, hfuel with
    | fuel + 1, _ =>
      rw [poll_for_answer_succ]
      have h0 : timeoutExceeded timeout_seconds (elapsed i) = false := by
        simpa using htim 0 (Nat.le_refl 0)
      have hf : responses i = .httpError status_text := by simpa using hfail
      simp [h0, hf, pollEvents]
  | succ m ih =>
    intro i fuel hno hfail htim hfuel
    match fuel, hfuel with
    | fuel + 1, hfuel =>
      rw [poll_for_answer_succ]
      have h0 : timeoutExceeded timeout_seconds (elapsed i) = false := by
        simpa using htim 0 (Nat.zero_le _)
      have hn0 : responses i = .ok { maybe_answer := none } := by
        simpa using hno 0 (Nat.succ_pos m)
      have hno1 : ∀ j, j < m →
          responses (i + 1 + j) = .ok { maybe_answer := none } := by
        intro j hj
        have e : i + 1 + j = i + (j + 1) := by omega
        rw [e]; exact hno (j + 1) (by omega)
      have hfail1 : responses (i + 1 + m) = .httpError status_text := by
        have e : i + 1 + m = i + (m + 1) := by omega
        rw [e]; exact hfail
      have htim1 : ∀ j, j ≤ m →
          timeoutExceeded timeout_seconds (elapsed (i + 1 + j)) = false := by
        intro j hj
        have e : i + 1 + j = i + (j + 1) := by omega
        rw [e]; exact htim (j + 1) (by omega)
      have hrec := ih (i + 1) fuel hno1 hfail1 htim1 (by omega)
      simp [h0, hn0, hrec, pollEvents]

/-- A GET event at the head of a trace adds one to the poll count. -/
lemma countPolls_cons_getPoll (url auth : String) (l : List ClientEvent) :
    countPolls (.getPoll url auth :: l) = countPolls l + 1 := by
  simp [countPolls, List.filter_cons]

/-- A sleep event at the head of a trace leaves the poll count unchanged. -/
lemma countPolls_cons_sleepMs (ms : Nat) (l : List ClientEvent) :
    countPolls (.sleepMs ms :: l) = countPolls l := by
  simp [countPolls, List.filter_cons]

/-- A POST event at the head of a trace leaves the poll count unchanged. -/
lemma countPolls_cons_postCreate (url auth : String) (l : List ClientEvent) :
    countPolls (.postCreate url auth :: l) = countPolls l := by
  simp [countPolls, List.filter_cons]

/-- An event trace of n polls ending in a request holds exactly n GET
requests. -/
lemma countPolls_pollEvents (url auth : String) :
    ∀ n, countPolls (pollEvents url auth n) = n
  | 0 => rfl
  | 1 => rfl
  | n + 2 => by
      have ih := countPolls_pollEvents url auth (n + 1)
      simp only [pollEvents, countPolls_cons_getPoll, countPolls_cons_sleepMs]
      omega

/-- An event trace of n polls ending at a timeout boundary holds exactly
n GET requests. -/
lemma countPolls_pollTimeoutEvents (url auth : String) :
    ∀ n, countPolls (pollTimeoutEvents url auth n) = n
  | 0 => rfl
  | n + 1 => by
      have ih := countPolls_pollTimeoutEvents url auth n
      simp only [pollTimeoutEvents, countPolls_cons_getPoll,
        countPolls_cons_sleepMs]
      omega

/-- Nonemptiness of a string transfers to its isEmpty test. -/
lemma isEmpty_false_of_ne (s : String) (h : s ≠ "") : s.isEmpty = false := by
  rw [Bool.eq_false_iff]
  intro hc
  exact h ((String.isEmpty_iff s).mp hc)

/-- C10: for every api key k, new_from_key k is identical to new applied
to the configuration with api_key k and no endpoint override: the same
success or failure outcome, the same resulting client configuration, and
the same (empty) transport activity. -/
theorem new_from_key_equals_new_default_config (k : String) :
    WaitHuman.new_from_key k =
      WaitHuman.new { api_key := k, endpoint := none } := rfl

/-- C6: construction succeeds for every nonempty api key and fails with
the InvalidResponse configuration error for the empty key, for both new
and new_from_key; in every case the construction performs zero transport
calls (an empty event trace). -/
theorem construction_requires_nonempty_key (config : WaitHumanConfig)
    (k : String) :
    (config.api_key ≠ "" → ∃ w, WaitHuman.new config = (.ok w, [])) ∧
    (config.api_key = "" →
      WaitHuman.new config =
        (.error (.InvalidResponse "api_key is mandatory"), [])) ∧
    (k ≠ "" → ∃ w, WaitHuman.new_from_key k = (.ok w, [])) ∧
    (k = "" →
      WaitHuman.new_from_key k =
        (.error (.InvalidResponse "api_key is mandatory"), [])) ∧
    (WaitHuman.new config).2 = [] ∧ (WaitHuman.new_from_key k).2 = [] := by
  have hemp : ("" : String).isEmpty = true := rfl
  refine ⟨?_, ?_, ?_, ?_, ?_, ?_⟩
  · intro h
    exact ⟨_, by simp [WaitHuman.new, isEmpty_false_of_ne _ h]; rfl⟩
  · intro h
    simp [WaitHuman.new, h, hemp]
  · intro h
    exact ⟨_, by
      simp [WaitHuman.new_from_key, WaitHuman.new, WaitHumanConfig.new,
        isEmpty_false_of_ne _ h]; rfl⟩
  · intro h
    simp [WaitHuman.new_from_key, WaitHuman.new, WaitHumanConfig.new, h, hemp]
  · cases hc : config.api_key.isEmpty <;> simp [WaitHuman.new, hc]
  · cases hc : k.isEmpty <;>
      simp [WaitHuman.new_from_key, WaitHuman.new, WaitHumanConfig.new, hc]

/-- C6 witness: a concrete nonempty key constructs, the empty key is
rejected, both with an empty transport trace. -/
theorem construction_requires_nonempty_key_witness :
    (∃ w, WaitHuman.new { api_key := "key", endpoint := none } = (.ok w, [])) ∧
    WaitHuman.new_from_key "" =
      (.error (.InvalidResponse "api_key is mandatory"), []) :=
  ⟨(construction_requires_nonempty_key { api_key := "key", endpoint := none }
      "").1 (by decide),
   (construction_requires_nonempty_key { api_key := "key", endpoint := none }
      "").2.2.2.1 rfl⟩

/-- C8 counterexample: an endpoint override ending in two slashes keeps
one of them, so the stored endpoint of a successfully constructed client
can end with a slash, contradicting the claim. -/
theorem endpoint_double_slash_counterexample :
    WaitHuman.new
        { api_key := "k", endpoint := some "https://api.example.com//" } =
      (.ok { api_key := "k", endpoint := "https://api.example.com/" }, []) ∧
    ("https://api.example.com/").data.getLast? = some '/' := by
  constructor
  · decide
  · decide

/-- C8 amended: after successful construction the stored endpoint is the
default when no override is given, and otherwise the override with
exactly one trailing slash character removed when it ends with one; an
override ending in several slashes keeps all but the last, so the stored
endpoint can still end with a slash. -/
theorem endpoint_normalization (k : String) (ep : Option String)
    (h : k ≠ "") :
    WaitHuman.new { api_key := k, endpoint := ep } =
      (.ok { api_key := k,
             endpoint :=
               (match ep with
                | none => DEFAULT_ENDPOINT
                | some e =>
                    if e.data.getLast? = some '/' then String.mk e.data.dropLast
                    else e) }, []) := by
  have hk := isEmpty_false_of_ne k h
  have hdef : ¬ DEFAULT_ENDPOINT.data.getLast? = some '/' := by decide
  cases ep with
  | none => simp [WaitHuman.new, hk, Option.getD, hdef]
  | some e => simp [WaitHuman.new, hk, Option.getD]

/-- C8 witness: a single trailing slash is stripped from an override, and
the default endpoint is stored verbatim. -/
theorem endpoint_normalization_witness :
    WaitHuman.new { api_key := "key", endpoint := some "http://x/" } =
      (.ok { api_key := "key", endpoint := "http://x" }, []) ∧
    WaitHuman.new { api_key := "key", endpoint := none } =
      (.ok { api_key := "key", endpoint := "https://api.waithuman.com" }, []) := by
  constructor
  · rw [endpoint_normalization "key" (some "http://x/") (by decide)]
    rfl
  · rw [endpoint_normalization "key" none (by decide)]
    rfl

/-- C2 counterexample: a multiple-choice answer whose selected_indexes
hold a valid first entry followed by an out-of-range entry is accepted:
with choices yes and no, selected_indexes 0 and 5 returns yes even though
5 is not a valid index, contradicting the claim that any out-of-range
entry is an error. -/
theorem multiple_choice_accepts_out_of_range_tail :
    outcomeOf (demoClient.ask_multiple_choice "subject" ["yes", "no"] none
        none (createOk "id") (answerFirst (demoAnswer (.options [0, 5])))
        (fun _ => 0) 1) = some (.ok "yes") ∧
    (["yes", "no"] : List String).length ≤ 5 :=
  ⟨rfl, by decide⟩

/-- C2 amended: only the first entry of selected_indexes is validated: a
multiple-choice call that returns successfully received an Options answer
whose first entry is a valid index into the original choices, and the
result is the choice at that entry; entries after the first are not
checked. -/
theorem multiple_choice_validates_first_index_only (c : WaitHuman)
    (subject : String) (choices : List String) (body : Option String)
    (options : Option AskOptions)
    (createResp : HttpResult CreateConfirmationResponse)
    (responses : Nat → HttpResult GetConfirmationResponse)
    (elapsed : Nat → ℚ) (fuel : Nat) (s : String) (evs : List ClientEvent)
    (h : c.ask_multiple_choice subject choices body options createResp
        responses elapsed fuel = some (.ok s, evs)) :
    ∃ answer sel index,
      c.ask { method := .push, subject := subject, body := body,
              answer_format := .options choices false } options createResp
          responses elapsed fuel = some (.ok answer, evs) ∧
      answer.answer.answer_content = .options sel ∧
      sel.head? = some index ∧
      index < choices.length ∧
      choices.get? index = some s := by
  simp only [WaitHuman.ask_multiple_choice] at h
  cases hask : c.ask { method := .push, subject := subject, body := body,
                       answer_format := .options choices false } options
      createResp responses elapsed fuel with
  | none => rw [hask] at h; simp at h
  | some pr =>
    obtain ⟨res, evs1⟩ := pr
    cases res with
    | error e => rw [hask] at h; simp at h
    | ok answer =>
      rw [hask] at h
      dsimp only at h
      cases hcontent : answer.answer.answer_content with
      | freeText t => rw [hcontent] at h; simp at h
      | options sel =>
        rw [hcontent] at h
        dsimp only at h
        cases sel with
        | nil => simp at h
        | cons index rest =>
          simp only [List.head?_cons] at h
          cases hget : choices.get? index with
          | none => rw [hget] at h; simp at h
          | some choice =>
            rw [hget] at h
            dsimp only at h
            simp only [Option.some.injEq, Prod.mk.injEq] at h
            obtain ⟨hc1, hc2⟩ := h
            have hcs : choice = s := by
              simpa using hc1
            subst hcs hc2
            obtain ⟨hlt, -⟩ := List.get?_eq_some.mp hget
            exact ⟨answer, index :: rest, index, rfl, hcontent,
              rfl, hlt, hget⟩

/-- C2 amended witness: on the concrete out-of-range-tail run the
successful result is the choice at the valid first index. -/
theorem multiple_choice_validates_first_index_only_witness :
    ∃ answer sel index,
      demoClient.ask { method := .push, subject := "subject", body := none,
                       answer_format := .options ["yes", "no"] false } none
          (createOk "id")
          (answerFirst (demoAnswer (.options [0, 5]))) (fun _ => 0) 1 =
        some (.ok answer,
          [.postCreate (createUrl demoClient) "k",
           .getPoll (pollUrl demoClient "id") "k"]) ∧
      answer.answer.answer_content = .options sel ∧
      sel.head? = some index ∧
      index < (["yes", "no"] : List String).length ∧
      (["yes", "no"] : List String).get? index = some "yes" :=
  multiple_choice_validates_first_index_only demoClient "subject"
    ["yes", "no"] none none (createOk "id")
    (answerFirst (demoAnswer (.options [0, 5]))) (fun _ => 0) 1 "yes"
    [.postCreate (createUrl demoClient) "k",
     .getPoll (pollUrl demoClient "id") "k"] rfl

/-- C1: whatever answer the server returns to ask_multiple_choice, the
call narrows it as specified: an Options answer with an empty index list
fails with the no-selection InvalidResponse; otherwise the first selected
index is taken, out of bounds for the original choices failing with
InvalidSelectedIndex carrying that index, and in bounds returning the
choice string at that index; any other content variant fails with
UnexpectedAnswerType. -/
theorem ask_multiple_choice_answer_handling (c : WaitHuman)
    (subject : String) (choices : List String) (body : Option String)
    (options : Option AskOptions)
    (createResp : HttpResult CreateConfirmationResponse)
    (responses : Nat → HttpResult GetConfirmationResponse)
    (elapsed : Nat → ℚ) (fuel : Nat) (answer : ConfirmationAnswerWithDate)
    (evs : List ClientEvent)
    (h : c.ask { method := .push, subject := subject, body := body,
                 answer_format := .options choices false } options createResp
        responses elapsed fuel = some (.ok answer, evs)) :
    c.ask_multiple_choice subject choices body options createResp responses
        elapsed fuel =
      some ((match answer.answer.answer_content with
             | .options [] =>
                 Except.error (.InvalidResponse "No selection received")
             | .options (index :: _) =>
                 if hix : index < choices.length then
                   Except.ok (choices.get ⟨index, hix⟩)
                 else Except.error (.InvalidSelectedIndex index)
             | .freeText text =>
                 Except.error (.UnexpectedAnswerType "options"
                   (AnswerContent.debugFmt (.freeText text)))), evs) := by
  simp only [WaitHuman.ask_multiple_choice]
  rw [h]
  dsimp only
  cases hcontent : answer.answer.answer_content with
  | freeText t => rfl
  | options sel =>
    cases sel with
    | nil => rfl
    | cons index rest =>
      by_cases hix : index < choices.length
      · simp only [List.head?_cons, List.get?_eq_get hix, dif_pos hix]
      · have hge : choices.length ≤ index := Nat.le_of_not_lt hix
        simp only [List.head?_cons, List.get?_eq_none.mpr hge, dif_neg hix]

/-- C1 witness: choices yes and no with a mocked first-poll answer
selecting index 1 return the string no. -/
theorem ask_multiple_choice_answer_handling_witness :
    demoClient.ask_multiple_choice "subject" ["yes", "no"] none none
        (createOk "id") (answerFirst (demoAnswer (.options [1])))
        (fun _ => 0) 1 =
      some (.ok "no",
        [.postCreate (createUrl demoClient) "k",
         .getPoll (pollUrl demoClient "id") "k"]) := by
  rw [ask_multiple_choice_answer_handling demoClient "subject" ["yes", "no"]
    none none (createOk "id") (answerFirst (demoAnswer (.options [1])))
    (fun _ => 0) 1 (demoAnswer (.options [1]))
    [.postCreate (createUrl demoClient) "k",
     .getPoll (pollUrl demoClient "id") "k"] rfl]
  rfl

/-- C7: whatever answer the server returns to ask_free_text, a FreeText
content yields its text, and any other content variant fails with
UnexpectedAnswerType whose expected field is free_text and whose actual
field is the Debug rendering of the received variant. -/
theorem ask_free_text_narrowing (c : WaitHuman) (subject : String)
    (body : Option String) (options : Option AskOptions)
    (createResp : HttpResult CreateConfirmationResponse)
    (responses : Nat → HttpResult GetConfirmationResponse)
    (elapsed : Nat → ℚ) (fuel : Nat) (answer : ConfirmationAnswerWithDate)
    (evs : List ClientEvent)
    (h : c.ask { method := .push, subject := subject, body := body,
                 answer_format := .freeText } options createResp responses
        elapsed fuel = some (.ok answer, evs)) :
    c.ask_free_text subject body options createResp responses elapsed fuel =
      some ((match answer.answer.answer_content with
             | .freeText text => Except.ok text
             | .options selected_indexes =>
                 Except.error (.UnexpectedAnswerType "free_text"
                   (AnswerContent.debugFmt (.options selected_indexes)))),
        evs) := by
  simp only [WaitHuman.ask_free_text]
  rw [h]
  dsimp only
  cases hcontent : answer.answer.answer_content with
  | freeText t => rfl
  | options sel => rfl

/-- C7 witness: a mocked Options answer to a free-text question fails
with UnexpectedAnswerType recording the Debug rendering of the received
Options value. -/
theorem ask_free_text_narrowing_witness :
    demoClient.ask_free_text "subject" none none (createOk "id")
        (answerFirst (demoAnswer (.options [1, 2]))) (fun _ => 0) 1 =
      some (.error (.UnexpectedAnswerType "free_text"
          "Options \x7b selected_indexes: [1, 2] \x7d"),
        [.postCreate (createUrl demoClient) "k",
         .getPoll (pollUrl demoClient "id") "k"]) := by
  rw [ask_free_text_narrowing demoClient "subject" none none (createOk "id")
    (answerFirst (demoAnswer (.options [1, 2]))) (fun _ => 0) 1
    (demoAnswer (.options [1, 2]))
    [.postCreate (createUrl demoClient) "k",
     .getPoll (pollUrl demoClient "id") "k"] rfl]
  rfl

/-- C9: ask returns the dated answer exactly as decoded from the first
poll response carrying one, for every question, without comparing the
content variant of the answer against the answer_format of the question:
the returned value is the untouched answer even when the variants
mismatch. -/
theorem ask_ignores_answer_format (c : WaitHuman)
    (question : ConfirmationQuestion) (options : Option AskOptions)
    (id : String) (a : ConfirmationAnswerWithDate) (elapsed : Nat → ℚ)
    (fuel : Nat)
    (h : timeoutExceeded (options.bind fun o => o.timeout_seconds)
        (elapsed 0) = false) :
    c.ask question options (createOk id) (answerFirst a) elapsed (fuel + 1) =
      some (.ok a,
        [.postCreate (createUrl c) c.api_key,
         .getPoll (pollUrl c id) c.api_key]) := by
  have hp := poll_answers_after c id (answerFirst a) elapsed
    (options.bind fun o => o.timeout_seconds) a 0 0 (fuel + 1)
    (fun j hj => absurd hj (Nat.not_lt_zero j)) rfl
    (fun j hj => by
      have hj0 : j = 0 := Nat.le_zero.mp hj
      subst hj0
      simpa using h)
    (by omega)
  simp only [WaitHuman.ask, WaitHuman.create_confirmation, createOk]
  rw [hp]
  simp [pollEvents, createUrl, pollUrl]

/-- C9 witness: a question expecting free text paired with a mocked
Options answer is still returned untouched by ask. -/
theorem ask_ignores_answer_format_witness :
    demoClient.ask { method := .push, subject := "s", body := none,
                     answer_format := .freeText } none (createOk "id")
        (answerFirst (demoAnswer (.options [0]))) (fun _ => 0) 1 =
      some (.ok (demoAnswer (.options [0])),
        [.postCreate (createUrl demoClient) "k",
         .getPoll (pollUrl demoClient "id") "k"]) :=
  ask_ignores_answer_format demoClient
    { method := .push, subject := "s", body := none,
      answer_format := .freeText } none "id" (demoAnswer (.options [0]))
    (fun _ => 0) 0 rfl

/-- C3: when the poll endpoint has no answer for the first k - 1 GET
requests and a present answer on the k-th, and no specified timeout is
exceeded at any of the k iteration boundaries, ask issues the creation
POST followed by exactly k poll GETs separated by fixed-interval sleeps
and returns that answer. -/
theorem ask_polls_k_times_then_answers (c : WaitHuman)
    (question : ConfirmationQuestion) (options : Option AskOptions)
    (id : String) (responses : Nat → HttpResult GetConfirmationResponse)
    (elapsed : Nat → ℚ) (a : ConfirmationAnswerWithDate) (k fuel : Nat)
    (hk : 1 ≤ k)
    (hno : ∀ j, j + 1 < k → responses j = .ok { maybe_answer := none })
    (hans : responses (k - 1) = .ok { maybe_answer := some a })
    (htim : ∀ j, j < k →
      timeoutExceeded (options.bind fun o => o.timeout_seconds) (elapsed j) =
        false)
    (hfuel : k ≤ fuel) :
    c.ask question options (createOk id) responses elapsed fuel =
      some (.ok a, .postCreate (createUrl c) c.api_key ::
        pollEvents (pollUrl c id) c.api_key k) ∧
    countPolls (.postCreate (createUrl c) c.api_key ::
        pollEvents (pollUrl c id) c.api_key k) = k := by
  obtain ⟨m, rfl⟩ : ∃ m, k = m + 1 := ⟨k - 1, by omega⟩
  constructor
  · have hp := poll_answers_after c id responses elapsed
      (options.bind fun o => o.timeout_seconds) a m 0 fuel
      (by intro j hj; simpa using hno j (by omega))
      (by simpa using hans)
      (by intro j hj; simpa using htim j (by omega))
      (by omega)
    simp only [WaitHuman.ask, WaitHuman.create_confirmation, createOk]
    rw [hp]
    simp [createUrl, pollUrl]
  · rw [countPolls_cons_postCreate, countPolls_pollEvents]

/-- C3 witness: with an answer on the second request, ask performs the
POST, a GET, one fixed sleep and the answering GET, two polls in all. -/
theorem ask_polls_k_times_then_answers_witness :
    (demoClient.ask { method := .push, subject := "s", body := none,
                      answer_format := .freeText } none (createOk "id")
        (fun i => if i = 1 then
            .ok { maybe_answer := some (demoAnswer (.freeText "t")) }
          else .ok { maybe_answer := none })
        (fun _ => 0) 2 =
      some (.ok (demoAnswer (.freeText "t")),
        [.postCreate (createUrl demoClient) "k",
         .getPoll (pollUrl demoClient "id") "k",
         .sleepMs 3000,
         .getPoll (pollUrl demoClient "id") "k"])) ∧
    countPolls
        [ClientEvent.postCreate (createUrl demoClient) "k",
         .getPoll (pollUrl demoClient "id") "k",
         .sleepMs 3000,
         .getPoll (pollUrl demoClient "id") "k"] = 2 :=
  ask_polls_k_times_then_answers demoClient
    { method := .push, subject := "s", body := none,
      answer_format := .freeText } none "id"
    (fun i => if i = 1 then
        .ok { maybe_answer := some (demoAnswer (.freeText "t")) }
      else .ok { maybe_answer := none })
    (fun _ => 0) (demoAnswer (.freeText "t")) 2 2
    (by omega)
    (by intro j hj
        have hj0 : j = 0 := by omega
        subst hj0
        rfl)
    rfl
    (by intro j hj; rfl)
    (by omega)

/-- C4: with a specified timeout of N seconds and a poll endpoint whose
successful responses never carry an answer, the loop stops at the first
iteration boundary whose elapsed seconds strictly exceed N, before
issuing the GET of that iteration: ask fails with Timeout carrying the
fractional elapsed seconds of that boundary, at least N, after exactly m
poll GETs, m being the number of boundaries within the timeout. -/
theorem ask_times_out_at_first_exceeding_boundary (c : WaitHuman)
    (question : ConfirmationQuestion) (id : String)
    (responses : Nat → HttpResult GetConfirmationResponse)
    (elapsed : Nat → ℚ) (N m fuel : Nat)
    (hresp : ∀ i, responses i = .ok { maybe_answer := none })
    (hwithin : ∀ i, i < m → elapsed i ≤ (N : ℚ))
    (hm : (N : ℚ) < elapsed m)
    (hfuel : m + 1 ≤ fuel) :
    c.ask question (some { timeout_seconds := some N }) (createOk id)
        responses elapsed fuel =
      some (.error (.Timeout (elapsed m)),
        .postCreate (createUrl c) c.api_key ::
          pollTimeoutEvents (pollUrl c id) c.api_key m) ∧
    (N : ℚ) ≤ elapsed m ∧
    countPolls (pollTimeoutEvents (pollUrl c id) c.api_key m) = m := by
  refine ⟨?_, le_of_lt hm, countPolls_pollTimeoutEvents _ _ _⟩
  have hp := poll_times_out_at c id responses elapsed (some N) m 0 fuel
    (by intro j hj; simpa using hresp j)
    (by intro j hj
        simp only [timeoutExceeded, Nat.zero_add]
        exact decide_eq_false (not_lt.mpr (hwithin j hj)))
    (by simp only [timeoutExceeded, Nat.zero_add]
        exact decide_eq_true hm)
    hfuel
  simp only [Nat.zero_add] at hp
  simp only [WaitHuman.ask, WaitHuman.create_confirmation, createOk,
    Option.bind]
  rw [hp]
  simp [createUrl, pollUrl]

/-- C4 witness: timeout one second, boundaries at zero then two seconds:
the call times out at the second boundary after one poll, carrying
elapsed seconds two. -/
theorem ask_times_out_at_first_exceeding_boundary_witness :
    (demoClient.ask { method := .push, subject := "s", body := none,
                      answer_format := .freeText }
        (some { timeout_seconds := some 1 }) (createOk "id") neverAnswer
        (fun i => if i = 0 then (0 : ℚ) else 2) 2 =
      some (.error (.Timeout 2),
        [.postCreate (createUrl demoClient) "k",
         .getPoll (pollUrl demoClient "id") "k",
         .sleepMs 3000])) ∧
    ((1 : Nat) : ℚ) ≤ 2 ∧
    countPolls
        [ClientEvent.getPoll (pollUrl demoClient "id") "k",
         .sleepMs 3000] = 1 :=
  ask_times_out_at_first_exceeding_boundary demoClient
    { method := .push, subject := "s", body := none,
      answer_format := .freeText } "id" neverAnswer
    (fun i => if i = 0 then (0 : ℚ) else 2) 1 1 2
    (fun i => rfl)
    (by intro i hi
        have hi0 : i = 0 := by omega
        subst hi0
        norm_num)
    (by norm_num)
    (by omega)

/-- C5: a non-success HTTP status on the create request fails ask with
CreateFailed carrying the status text and issues zero poll GETs, and a
non-success HTTP status on a poll request fails ask with PollFailed
carrying the status text, the single failed poll aborting the call after
exactly m + 1 GETs; neither failure is retried. -/
theorem ask_surfaces_create_and_poll_failures (c : WaitHuman)
    (question : ConfirmationQuestion) (options : Option AskOptions)
    (id : String) (st st2 : String)
    (responses : Nat → HttpResult GetConfirmationResponse)
    (elapsed : Nat → ℚ) (m fuel : Nat)
    (hno : ∀ j, j < m → responses j = .ok { maybe_answer := none })
    (hfail : responses m = .httpError st2)
    (htim : ∀ j, j ≤ m →
      timeoutExceeded (options.bind fun o => o.timeout_seconds) (elapsed j) =
        false)
    (hfuel : m + 1 ≤ fuel) :
    (c.ask question options (.httpError st) responses elapsed fuel =
        some (.error (.CreateFailed st),
          [.postCreate (createUrl c) c.api_key]) ∧
      countPolls [ClientEvent.postCreate (createUrl c) c.api_key] = 0) ∧
    (c.ask question options (createOk id) responses elapsed fuel =
        some (.error (.PollFailed st2),
          .postCreate (createUrl c) c.api_key ::
            pollEvents (pollUrl c id) c.api_key (m + 1)) ∧
      countPolls (pollEvents (pollUrl c id) c.api_key (m + 1)) = m + 1) := by
  refine ⟨⟨?_, rfl⟩, ?_, countPolls_pollEvents _ _ _⟩
  · simp [WaitHuman.ask, WaitHuman.create_confirmation, createUrl]
  · have hp := poll_fails_at c id responses elapsed
      (options.bind fun o => o.timeout_seconds) st2 m 0 fuel
      (by intro j hj; simpa using hno j hj)
      (by simpa using hfail)
      (by intro j hj; simpa using htim j hj)
      hfuel
    simp only [WaitHuman.ask, WaitHuman.create_confirmation, createOk]
    rw [hp]
    simp [createUrl, pollUrl]

/-- C5 witness: a failing creation performs no poll, and an immediately
failing poll aborts the call after its single GET. -/
theorem ask_surfaces_create_and_poll_failures_witness :
    (demoClient.ask { method := .push, subject := "s", body := none,
                      answer_format := .freeText } none
        (.httpError "503 Service Unavailable")
        (fun _ => .httpError "500 Internal Server Error") (fun _ => 0) 1 =
        some (.error (.CreateFailed "503 Service Unavailable"),
          [.postCreate (createUrl demoClient) "k"]) ∧
      countPolls [ClientEvent.postCreate (createUrl demoClient) "k"] = 0) ∧
    (demoClient.ask { method := .push, subject := "s", body := none,
                      answer_format := .freeText } none (createOk "id")
        (fun _ => .httpError "500 Internal Server Error") (fun _ => 0) 1 =
        some (.error (.PollFailed "500 Internal Server Error"),
          [.postCreate (createUrl demoClient) "k",
           .getPoll (pollUrl demoClient "id") "k"]) ∧
      countPolls [ClientEvent.getPoll (pollUrl demoClient "id") "k"] = 1) :=
  ask_surfaces_create_and_poll_failures demoClient
    { method := .push, subject := "s", body := none,
      answer_format := .freeText } none "id" "503 Service Unavailable"
    "500 Internal Server Error"
    (fun _ => .httpError "500 Internal Server Error") (fun _ => 0) 0 1
    (by intro j hj; omega)
    rfl
    (by intro j hj; rfl)
    (by omega)

end WaitHumanClient
